import Mathlib

/-!
Shallow embedding of the attendance tracker (`src/main.py`).

Modelling conventions:
* The MongoDB `attendance` collection is a `List AttendanceRecord` in insertion
  order; `find_one` is `List.find?`, `insert_one` appends, and `update_one` by
  the `_id` of a previously found document replaces the first record matching
  the query key (the same document `find_one` returns).
* A wall-clock reading (`datetime.now(IST)`) is passed in as its minutes past
  midnight; the code only ever uses the reading's `hour` and `minute`.
* Time-of-day strings use the source's `'%I:%M %p'` format: `formatTime`
  models `strftime`, `parseTime` models `strptime` (which raises on a string
  that does not match; the `Option` is `none` exactly then).
* Python `round(x, 2)` is modelled on `ℚ` by `round2`; the values rounded here
  are integer minute counts divided by 60, whose hundredfold is never half an
  odd integer, so round-half-even and round-half-up agree.
* The imaging library behind `save_image` is external (PIL): the byte codec is
  modelled as a header of the two dimensions followed by the pixel payload,
  and `Image.resize((250, 250))` forces the dimensions to 250 × 250 (the
  resampling of the payload is the library's concern and is kept abstract).
* The geodesic-distance computation of `is_within_allowed_location` is the
  external `geopy` library; it is abstracted as a distance function handed to
  the admission check.
-/

namespace Attendance

/-- One decimal digit of a time string: `some d` when `c` is `'0'`-`'9'`. -/
def digitVal? (c : Char) : Option Nat :=
  if c.isDigit then some (c.toNat - 48) else none

/-- Read one or two decimal digits from the front of a character list,
as `strptime`'s `%I` and `%M` directives do. -/
def readNum2 : List Char → Option (Nat × List Char)
  | [] => none
  | c :: cs =>
    match digitVal? c with
    | none => none
    | some d1 =>
      match cs with
      | c2 :: cs2 =>
        match digitVal? c2 with
        | some d2 => some (d1 * 10 + d2, cs2)
        | none => some (d1, cs)
      | [] => some (d1, [])

/-- `strptime(s, '%I:%M %p')` on the character list of `s`: an hour in 1-12,
a colon, minutes in 0-59, a space and `AM`/`PM`; the result is minutes past
midnight.  `none` models the `ValueError` Python raises. -/
def parseTimeChars (cs : List Char) : Option Nat :=
  match readNum2 cs with
  | none => none
  | some (h, rest) =>
    match rest with
    | ':' :: rest2 =>
      match readNum2 rest2 with
      | none => none
      | some (mn, rest3) =>
        if 1 ≤ h ∧ h ≤ 12 ∧ mn ≤ 59 then
          match rest3 with
          | [' ', 'A', 'M'] => some ((h % 12) * 60 + mn)
          | [' ', 'P', 'M'] => some ((h % 12 + 12) * 60 + mn)
          | _ => none
        else none
    | _ => none

/-- `datetime.strptime(s, '%I:%M %p')`, as minutes past midnight. -/
def parseTime (s : String) : Option Nat := parseTimeChars s.data

/-- `t.strftime('%I:%M %p')` for a clock reading `m` minutes past midnight:
zero-padded 12-hour clock (hour `0` and `12` both print as `12`). -/
def formatTime (m : Nat) : String :=
  let h24 := m / 60 % 24
  let mn := m % 60
  let h12 := if h24 % 12 = 0 then 12 else h24 % 12
  String.mk ([Nat.digitChar (h12 / 10), Nat.digitChar (h12 % 10), ':',
              Nat.digitChar (mn / 10), Nat.digitChar (mn % 10), ' '] ++
             (if h24 < 12 then ['A', 'M'] else ['P', 'M']))

/-- Python's `round(q, 2)` for the rationals arising here (see the module
doc comment: ties never occur on this call's inputs). -/
def round2 (q : ℚ) : ℚ := (((q * 100 + 1 / 2).floor : ℤ) : ℚ) / 100

/-- The minute difference of `log_leaving`: `leaving - arrival`, plus one day
when negative (`leaving_datetime += timedelta(days=1)`). -/
def wrapMinutes (arr leave : Int) : Int :=
  if leave - arr < 0 then leave - arr + 1440 else leave - arr

/-- `round(time_diff, 2)` of `log_leaving`, for an arrival and a leaving
time-of-day in minutes past midnight. -/
def hoursRounded (arr leave : Nat) : ℚ :=
  round2 ((wrapMinutes (arr : Int) (leave : Int) : ℚ) / 60)

/-- Modelled from the spec's words (§4.2), for comparison with the code's
`hoursRounded`: turn both times-of-day into hour instants, add 24 hours to
the leaving instant when it precedes the arrival instant, difference, and
round to 2 decimal places. -/
def elapsedHoursSpec (arrMin leaveMin : Nat) : ℚ :=
  round2 ((if (leaveMin : ℚ) / 60 < (arrMin : ℚ) / 60
           then (leaveMin : ℚ) / 60 + 24
           else (leaveMin : ℚ) / 60) - (arrMin : ℚ) / 60)

/-- A decoded image: dimensions plus pixel payload (external PIL object). -/
structure PILImage where
  width : Nat
  height : Nat
  pix : List Nat
deriving DecidableEq

/-- `Image.open` on a byte payload: first two entries are the dimensions,
the rest is the pixel payload. -/
def decodeImage : List Nat → PILImage
  | w :: h :: rest => ⟨w, h, rest⟩
  | _ => ⟨0, 0, []⟩

/-- `image.resize((250, 250))`: the output dimensions are 250 × 250 whatever
the input's were; the payload resampling is the external library's detail. -/
def resizeImage (img : PILImage) : PILImage :=
  { width := 250, height := 250, pix := img.pix }

/-- `image.save(buf, format='PNG')` followed by `buf.getvalue()`. -/
def encodeImage (img : PILImage) : List Nat :=
  img.width :: img.height :: img.pix

/-- `save_image`: decode the uploaded payload, resize to 250 × 250, re-encode
as PNG, and return the resulting bytes. -/
def save_image (bytes : List Nat) : List Nat :=
  encodeImage (resizeImage (decodeImage bytes))

/-- One document of the `attendance` collection. -/
structure AttendanceRecord where
  employeeId : String
  name : String
  date : Nat
  arrivalTime : String
  leavingTime : Option String
  hoursPresent : Option ℚ
  arrivalPhoto : List Nat
  leavingPhoto : Option (List Nat)
deriving DecidableEq

/-- The `attendance` collection, in insertion order. -/
abbrev DB := List AttendanceRecord

/-- The query `{"Employee ID": e, "Date": d}`. -/
def keyMatch (e : String) (d : Nat) (r : AttendanceRecord) : Bool :=
  r.employeeId == e && r.date == d

/-- `attendance_collection.find_one({"Employee ID": e, "Date": d})`. -/
def findRecord (db : DB) (e : String) (d : Nat) : Option AttendanceRecord :=
  db.find? (keyMatch e d)

/-- `attendance_collection.insert_one`: the collection has no unique index,
so the insert unconditionally appends a new document. -/
def insert_one (db : DB) (r : AttendanceRecord) : DB := db ++ [r]

/-- `attendance_collection.update_one({"_id": entry["_id"]}, {"$set": ...})`
where `entry` was obtained by `find_one` on the key: replace the first
record matching the key. -/
def updateFirst (db : DB) (e : String) (d : Nat)
    (f : AttendanceRecord → AttendanceRecord) : DB :=
  match db with
  | [] => []
  | r :: rest =>
    if keyMatch e d r then f r :: rest else r :: updateFirst rest e d f

/-- Number of records in the collection for one (employee, date) key. -/
def countKey (db : DB) (e : String) (d : Nat) : Nat :=
  db.countP (keyMatch e d)

/-- `log_arrival(emp_id, name, date, photo)` with the clock reading passed in
as `now` minutes past midnight.  Returns the `(success, message)` pair and
the collection afterwards. -/
def log_arrival (db : DB) (now : Nat) (e nm : String) (d : Nat)
    (photo : List Nat) : (Bool × String) × DB :=
  match findRecord db e d with
  | some _ => ((false, "Arrival already logged for today."), db)
  | none =>
    ((true, "Arrival logged successfully."),
     insert_one db
       { employeeId := e, name := nm, date := d,
         arrivalTime := formatTime now,
         leavingTime := none, hoursPresent := none,
         arrivalPhoto := save_image photo, leavingPhoto := none })

/-- Outcome of `log_leaving`: a `(success, message)` return, or an uncaught
`ValueError` from `strptime` on a stored arrival string that does not parse
(possible only after an administrative edit wrote such a string). -/
inductive LeaveResult where
  | ret (success : Bool) (msg : String)
  | exn
deriving DecidableEq

/-- The `$set` document of `log_leaving`'s `update_one`: leaving time and
photo from the current call, hours from the stored arrival (as `arrMin`
minutes) and the clock reading `now`. -/
def leavePatch (now arrMin : Nat) (photo : List Nat)
    (r : AttendanceRecord) : AttendanceRecord :=
  { r with leavingTime := some (formatTime now),
           hoursPresent := some (hoursRounded arrMin now),
           leavingPhoto := some (save_image photo) }

/-- `log_leaving(emp_id, date, photo)` with the clock reading passed in as
`now` minutes past midnight. -/
def log_leaving (db : DB) (now : Nat) (e : String) (d : Nat)
    (photo : List Nat) : LeaveResult × DB :=
  match findRecord db e d with
  | none => (.ret false "Arrival not logged for today.", db)
  | some entry =>
    match entry.leavingTime with
    | some _ => (.ret false "Leaving time already logged for today.", db)
    | none =>
      match parseTime entry.arrivalTime with
      | none => (.exn, db)
      | some arrMin =>
        (.ret true "Leaving time logged successfully.",
         updateFirst db e d (leavePatch now arrMin photo))

/-- The `Hours Present` value of the admin edit: both text inputs are parsed
with `strptime('%I:%M %p')` and differenced with no wrap-around correction;
a parse failure of either makes it `None`. -/
def adminHours (arrS leaveS : String) : Option ℚ :=
  match parseTime arrS, parseTime leaveS with
  | some a, some l => some (round2 (((l : ℚ) - (a : ℚ)) / 60))
  | _, _ => none

/-- The `$set` document of the admin edit's `update_one`: the raw text
inputs overwrite both time strings, `adminHours` gives `Hours Present`. -/
def adminPatch (arrS leaveS : String) (r : AttendanceRecord) :
    AttendanceRecord :=
  { r with arrivalTime := arrS,
           leavingTime := some leaveS,
           hoursPresent := adminHours arrS leaveS }

/-- The `Update Record` branch of `admin_page`: if a record exists for the
key, overwrite its `Arrival Time` and `Leaving Time` with the raw text
inputs and its `Hours Present` with `adminHours`; otherwise do nothing. -/
def admin_edit (db : DB) (e : String) (d : Nat) (arrS leaveS : String) : DB :=
  match findRecord db e d with
  | none => db
  | some _ => updateFirst db e d (adminPatch arrS leaveS)

/-- `get_location_restriction()`: the settings document as an optional
boolean; returns the read value and the settings store afterwards. -/
def get_location_restriction (s : Option Bool) : Bool × Option Bool :=
  match s with
  | some v => (v, s)
  | none => (true, some true)

/-- `set_location_restriction(value)`: upsert of the settings document. -/
def set_location_restriction (_s : Option Bool) (v : Bool) : Option Bool :=
  some v

/-- `ALLOWED_LOCATION`. -/
def ALLOWED_LOCATION : ℚ × ℚ := (12.8324706, 80.2286148)

/-- `MAX_DISTANCE_KM`. -/
def MAX_DISTANCE_KM : ℚ := 1

/-- `is_within_allowed_location(lat, lon)`, with the external geodesic
distance computation (geopy, in kilometers) passed in as `dist`. -/
def is_within_allowed_location (dist : ℚ × ℚ → ℚ × ℚ → ℚ)
    (lat lon : ℚ) : Bool :=
  decide (dist (lat, lon) ALLOWED_LOCATION ≤ MAX_DISTANCE_KM)

/-- One user-triggered operation touching the attendance collection. -/
inductive Op where
  | arrival (now : Nat) (empId nm : String) (day : Nat) (photo : List Nat)
  | leaving (now : Nat) (empId : String) (day : Nat) (photo : List Nat)
  | adminEdit (empId : String) (day : Nat) (arrS leaveS : String)
deriving DecidableEq

/-- Whether an operation is the administrative record edit. -/
def Op.isAdmin : Op → Bool
  | .adminEdit .. => true
  | _ => false

/-- Effect of one operation on the attendance collection. -/
def step (db : DB) : Op → DB
  | .arrival now e nm d ph => (log_arrival db now e nm d ph).2
  | .leaving now e d ph => (log_leaving db now e d ph).2
  | .adminEdit e d a l => admin_edit db e d a l

/-- Run a sequence of operations from the empty collection. -/
def run (ops : List Op) : DB := ops.foldl step []

/-- Whether `op`, applied to the collection `db`, is a `log_arrival` call for
key `(e, d)` that succeeds there. -/
def arrivalSucceedsHere (db : DB) (op : Op) (e : String) (d : Nat) : Bool :=
  match op with
  | .arrival now e2 nm d2 ph =>
    e2 == e && d2 == d && (log_arrival db now e2 nm d2 ph).1.1
  | _ => false

/-- Whether the trace `ops`, run from `db`, contains a `log_arrival` call for
key `(e, d)` that succeeds at its point in the trace. -/
def hasArrivalSuccess (db : DB) (ops : List Op) (e : String) (d : Nat) :
    Bool :=
  match ops with
  | [] => false
  | op :: rest =>
    arrivalSucceedsHere db op e d || hasArrivalSuccess (step db op) rest e d

/-- The data of the per-record invariant maintained by `log_arrival` and
`log_leaving`: the stored arrival string parses back (it was produced by
`strftime`), the leaving time and the hour count are set together, and a set
hour count is non-negative. -/
def RecordOK (r : AttendanceRecord) : Prop :=
  (parseTime r.arrivalTime).isSome = true ∧
  r.leavingTime.isSome = r.hoursPresent.isSome ∧
  ∀ q : ℚ, r.hoursPresent = some q → 0 ≤ q

/-! ### Time-string lemmas -/

/-- Anything `strptime('%I:%M %p')` accepts is a time-of-day below 24 hours. -/
theorem parseTime_lt {s : String} {m : Nat} (h : parseTime s = some m) :
    m < 1440 := by
  unfold parseTime parseTimeChars at h
  repeat' split at h
  all_goals simp_all
  all_goals omega

/-- `strftime('%I:%M %p')` only depends on the clock reading modulo one day. -/
theorem formatTime_mod (m : Nat) : formatTime m = formatTime (m % 1440) := by
  have h1 : m % 1440 / 60 % 24 = m / 60 % 24 := by omega
  have h2 : m % 1440 % 60 = m % 60 := by omega
  simp only [formatTime, h1, h2]

set_option maxRecDepth 10000 in
/-- Round trip of formatting then parsing, hour and minute separated. -/
theorem parse_format_hm : ∀ h < 24, ∀ mn < 60,
    parseTime (formatTime (h * 60 + mn)) = some (h * 60 + mn) := by decide

/-- Parsing a formatted clock reading recovers it modulo one day. -/
theorem parse_format (m : Nat) :
    parseTime (formatTime m) = some (m % 1440) := by
  rw [formatTime_mod]
  have hd : m % 1440 = m % 1440 / 60 * 60 + m % 1440 % 60 := by omega
  rw [hd]
  exact parse_format_hm (m % 1440 / 60) (by omega) (m % 1440 % 60) (by omega)

/-! ### Rounding lemmas -/

theorem round2_nonneg {q : ℚ} (h : 0 ≤ q) : 0 ≤ round2 q := by
  unfold round2
  have h0 : (0 : ℤ) ≤ (q * 100 + 1 / 2).floor := by
    rw [Rat.le_floor]
    push_cast
    linarith
  have h0' : (0 : ℚ) ≤ (((q * 100 + 1 / 2).floor : ℤ) : ℚ) := by
    exact_mod_cast h0
  positivity

theorem wrapMinutes_nonneg (arr leave : Nat) (h : arr < 1440) :
    0 ≤ wrapMinutes (arr : Int) (leave : Int) := by
  unfold wrapMinutes
  split <;> omega

theorem hoursRounded_nonneg (arr leave : Nat) (h : arr < 1440) :
    0 ≤ hoursRounded arr leave := by
  apply round2_nonneg
  apply div_nonneg _ (by norm_num)
  exact_mod_cast wrapMinutes_nonneg arr leave h

/-- The code's minute arithmetic agrees with the spec's description in hours:
add 24 hours to the leaving instant exactly when it precedes the arrival
instant, difference, and round. -/
theorem hoursRounded_eq_spec (arr leave : Nat) :
    hoursRounded arr leave = elapsedHoursSpec arr leave := by
  unfold hoursRounded elapsedHoursSpec wrapMinutes
  rcases lt_or_ge leave arr with hc | hc
  · have h1 : (leave : Int) - (arr : Int) < 0 := by omega
    have h2 : (leave : ℚ) / 60 < (arr : ℚ) / 60 := by
      have hq : (leave : ℚ) < (arr : ℚ) := by exact_mod_cast hc
      linarith
    rw [if_pos h1, if_pos h2]
    congr 1
    push_cast
    ring
  · have h1 : ¬ (leave : Int) - (arr : Int) < 0 := by omega
    have h2 : ¬ (leave : ℚ) / 60 < (arr : ℚ) / 60 := by
      have hq : (arr : ℚ) ≤ (leave : ℚ) := by exact_mod_cast hc
      intro hcon
      nlinarith
    rw [if_neg h1, if_neg h2]
    congr 1
    push_cast
    ring

/-! ### Collection lemmas -/

theorem updateFirst_countP (p : AttendanceRecord → Bool)
    (f : AttendanceRecord → AttendanceRecord) (e : String) (d : Nat)
    (hf : ∀ r, p (f r) = p r) :
    ∀ db : DB, (updateFirst db e d f).countP p = db.countP p := by
  intro db
  induction db with
  | nil => rfl
  | cons r rest ih =>
    unfold updateFirst
    split
    · simp [List.countP_cons, hf]
    · simp [List.countP_cons, ih]

theorem updateFirst_find?_isSome (p : AttendanceRecord → Bool)
    (f : AttendanceRecord → AttendanceRecord) (e : String) (d : Nat)
    (hf : ∀ r, p (f r) = p r) :
    ∀ db : DB,
      ((updateFirst db e d f).find? p).isSome = (db.find? p).isSome := by
  intro db
  induction db with
  | nil => rfl
  | cons r rest ih =>
    unfold updateFirst
    split
    · cases hp : p r <;> simp [List.find?_cons, hp, hf]
    · cases hp : p r <;> simp [List.find?_cons, hp, ih]

theorem updateFirst_forall {P : AttendanceRecord → Prop}
    {f : AttendanceRecord → AttendanceRecord} {e : String} {d : Nat}
    (hf : ∀ r, P r → P (f r)) :
    ∀ db : DB, (∀ r ∈ db, P r) → ∀ x ∈ updateFirst db e d f, P x := by
  intro db
  induction db with
  | nil => intro _ x hx; simp [updateFirst] at hx
  | cons r rest ih =>
    intro hdb x hx
    unfold updateFirst at hx
    split at hx
    · rcases List.mem_cons.mp hx with h | h
      · exact h ▸ hf r (hdb r (List.mem_cons_self r rest))
      · exact hdb x (List.mem_cons_of_mem r h)
    · rcases List.mem_cons.mp hx with h | h
      · exact h ▸ hdb r (List.mem_cons_self r rest)
      · exact ih (fun y hy => hdb y (List.mem_cons_of_mem r hy)) x h

theorem countKey_eq_zero {db : DB} {e : String} {d : Nat} :
    countKey db e d = 0 ↔ findRecord db e d = none := by
  unfold countKey findRecord
  rw [List.countP_eq_zero, List.find?_eq_none]

theorem countKey_insert (db : DB) (r : AttendanceRecord) (e : String)
    (d : Nat) :
    countKey (insert_one db r) e d =
      countKey db e d + (if keyMatch e d r then 1 else 0) := by
  unfold countKey insert_one
  rw [List.countP_append]
  simp [List.countP_cons]

/-- The patch applied by `log_leaving` and by the admin edit never touches
the `(employee, date)` key fields. -/
theorem keyMatch_set_leaving (e2 : String) (d2 : Nat) (lt : Option String)
    (hp : Option ℚ) (lp : Option (List Nat)) (r : AttendanceRecord) :
    keyMatch e2 d2 { r with leavingTime := lt, hoursPresent := hp,
                            leavingPhoto := lp } = keyMatch e2 d2 r := rfl

theorem find?_append_none {α : Type} {p : α → Bool} :
    ∀ {l1 l2 : List α}, l1.find? p = none → (l1 ++ l2).find? p = l2.find? p := by
  intro l1
  induction l1 with
  | nil => intro l2 _; rfl
  | cons a l ih =>
    intro l2 h
    cases hp : p a
    · rw [List.find?_cons_of_neg _ (by simp [hp])] at h
      rw [List.cons_append, List.find?_cons_of_neg _ (by simp [hp]), ih h]
    · rw [List.find?_cons_of_pos _ hp] at h
      simp at h

/-! ### Step lemmas: key uniqueness -/

theorem step_countKey_le (db : DB) (op : Op)
    (h : ∀ e d, countKey db e d ≤ 1) :
    ∀ e d, countKey (step db op) e d ≤ 1 := by
  intro e d
  cases op with
  | arrival now e2 nm d2 ph =>
    rcases hf : findRecord db e2 d2 with _ | r2
    · simp only [step, log_arrival, hf]
      rw [countKey_insert]
      by_cases hk : keyMatch e d
          { employeeId := e2, name := nm, date := d2,
            arrivalTime := formatTime now, leavingTime := none,
            hoursPresent := none, arrivalPhoto := save_image ph,
            leavingPhoto := none }
      · have hkey : e2 = e ∧ d2 = d := by
          simpa [keyMatch] using hk
        have h0 : countKey db e d = 0 := by
          rw [countKey_eq_zero]
          rw [← hkey.1, ← hkey.2]
          exact hf
        simp [hk, h0]
      · simpa [hk] using h e d
    · simpa only [step, log_arrival, hf] using h e d
  | leaving now e2 d2 ph =>
    rcases hf : findRecord db e2 d2 with _ | entry
    · simpa only [step, log_leaving, hf] using h e d
    · rcases hlv : entry.leavingTime with _ | t
      · rcases harr : parseTime entry.arrivalTime with _ | arrMin
        · simpa only [step, log_leaving, hf, hlv, harr] using h e d
        · simp only [step, log_leaving, hf, hlv, harr]
          unfold countKey
          rw [updateFirst_countP (keyMatch e d) (leavePatch now arrMin ph)
                e2 d2 (fun r => rfl)]
          exact h e d
      · simpa only [step, log_leaving, hf, hlv] using h e d
  | adminEdit e2 d2 aS lS =>
    rcases hf : findRecord db e2 d2 with _ | entry
    · simpa only [step, admin_edit, hf] using h e d
    · simp only [step, admin_edit, hf]
      unfold countKey
      rw [updateFirst_countP (keyMatch e d) (adminPatch aS lS)
            e2 d2 (fun r => rfl)]
      exact h e d

theorem foldl_countKey (ops : List Op) :
    ∀ db : DB, (∀ e d, countKey db e d ≤ 1) →
      ∀ e d, countKey (List.foldl step db ops) e d ≤ 1 := by
  induction ops with
  | nil => intro db h; simpa using h
  | cons op rest ih =>
    intro db h
    rw [List.foldl_cons]
    exact ih (step db op) (step_countKey_le db op h)

/-! ### Step lemmas: the per-record invariant -/

theorem step_RecordOK (db : DB) (op : Op) (hop : op.isAdmin = false)
    (h : ∀ r ∈ db, RecordOK r) : ∀ r ∈ step db op, RecordOK r := by
  cases op with
  | arrival now e2 nm d2 ph =>
    rcases hf : findRecord db e2 d2 with _ | r2
    · simp only [step, log_arrival, hf]
      intro r hr
      rcases List.mem_append.mp hr with hmem | hmem
      · exact h r hmem
      · have hrec := List.mem_singleton.mp hmem
        subst hrec
        refine ⟨?_, rfl, ?_⟩
        · rw [parse_format]; rfl
        · intro q hq; simp at hq
    · simp only [step, log_arrival, hf]
      exact h
  | leaving now e2 d2 ph =>
    rcases hf : findRecord db e2 d2 with _ | entry
    · simp only [step, log_leaving, hf]; exact h
    · rcases hlv : entry.leavingTime with _ | t
      · rcases harr : parseTime entry.arrivalTime with _ | arrMin
        · simp only [step, log_leaving, hf, hlv, harr]; exact h
        · simp only [step, log_leaving, hf, hlv, harr]
          refine updateFirst_forall ?_ db h
          intro r hrOK
          refine ⟨hrOK.1, rfl, ?_⟩
          intro q hq
          have hq' : hoursRounded arrMin now = q := by
            simpa [leavePatch] using hq
          rw [← hq']
          exact hoursRounded_nonneg arrMin now (parseTime_lt harr)
      · simp only [step, log_leaving, hf, hlv]; exact h
  | adminEdit e2 d2 aS lS =>
    simp [Op.isAdmin] at hop

theorem foldl_RecordOK (ops : List Op) :
    ∀ db : DB, (∀ op ∈ ops, op.isAdmin = false) → (∀ r ∈ db, RecordOK r) →
      ∀ r ∈ List.foldl step db ops, RecordOK r := by
  induction ops with
  | nil => intro db _ h; simpa using h
  | cons op rest ih =>
    intro db hops h
    rw [List.foldl_cons]
    exact ih (step db op)
      (fun o ho => hops o (List.mem_cons_of_mem op ho))
      (step_RecordOK db op (hops op (List.mem_cons_self op rest)) h)

theorem run_RecordOK (ops : List Op)
    (hops : ∀ op ∈ ops, op.isAdmin = false) :
    ∀ r ∈ run ops, RecordOK r :=
  foldl_RecordOK ops [] hops (by simp)

/-! ### Step lemmas: records are created only by successful arrivals -/

theorem step_found {db : DB} {op : Op} {e : String} {d : Nat}
    (h : (findRecord (step db op) e d).isSome = true) :
    (findRecord db e d).isSome = true ∨
      arrivalSucceedsHere db op e d = true := by
  cases op with
  | arrival now e2 nm d2 ph =>
    rcases hf : findRecord db e2 d2 with _ | r2
    · by_cases hdb : (findRecord db e d).isSome = true
      · exact Or.inl hdb
      · right
        have hnone : findRecord db e d = none := by
          rcases hx : findRecord db e d with _ | y
          · rfl
          · rw [hx] at hdb; simp at hdb
        simp only [step, log_arrival, hf] at h
        unfold findRecord insert_one at h
        rw [find?_append_none hnone] at h
        rcases hk : keyMatch e d
            { employeeId := e2, name := nm, date := d2,
              arrivalTime := formatTime now, leavingTime := none,
              hoursPresent := none, arrivalPhoto := save_image ph,
              leavingPhoto := none } with _ | _
        · rw [List.find?_cons_of_neg _ (by simp [hk])] at h
          simp at h
        · have hkey : e2 = e ∧ d2 = d := by simpa [keyMatch] using hk
          simp [arrivalSucceedsHere, log_arrival, hf, hnone, hkey.1, hkey.2]
    · left
      simpa only [step, log_arrival, hf] using h
  | leaving now e2 d2 ph =>
    left
    rcases hf : findRecord db e2 d2 with _ | entry
    · simpa only [step, log_leaving, hf] using h
    · rcases hlv : entry.leavingTime with _ | t
      · rcases harr : parseTime entry.arrivalTime with _ | arrMin
        · simpa only [step, log_leaving, hf, hlv, harr] using h
        · simp only [step, log_leaving, hf, hlv, harr] at h
          unfold findRecord at h ⊢
          rwa [updateFirst_find?_isSome (keyMatch e d)
                 (leavePatch now arrMin ph) e2 d2 (fun r => rfl)] at h
      · simpa only [step, log_leaving, hf, hlv] using h
  | adminEdit e2 d2 aS lS =>
    left
    rcases hf : findRecord db e2 d2 with _ | entry
    · simpa only [step, admin_edit, hf] using h
    · simp only [step, admin_edit, hf] at h
      unfold findRecord at h ⊢
      rwa [updateFirst_find?_isSome (keyMatch e d) (adminPatch aS lS)
             e2 d2 (fun r => rfl)] at h

theorem found_has_arrival :
    ∀ (ops : List Op) (db : DB) (e : String) (d : Nat),
      (findRecord (List.foldl step db ops) e d).isSome = true →
      (findRecord db e d).isSome = true ∨ hasArrivalSuccess db ops e d = true := by
  intro ops
  induction ops with
  | nil => intro db e d h; exact Or.inl h
  | cons op rest ih =>
    intro db e d h
    rw [List.foldl_cons] at h
    rcases ih (step db op) e d h with h1 | h1
    · rcases step_found h1 with h2 | h2
      · exact Or.inl h2
      · right
        unfold hasArrivalSuccess
        simp [h2]
    · right
      unfold hasArrivalSuccess
      simp [h1]

/-- A successful `log_leaving` presupposes a record with no leaving time. -/
theorem log_leaving_success_shape {db : DB} {now : Nat} {e : String}
    {d : Nat} {ph : List Nat} {msg : String}
    (h : (log_leaving db now e d ph).1 = .ret true msg) :
    ∃ r, findRecord db e d = some r ∧ r.leavingTime = none := by
  rcases hf : findRecord db e d with _ | entry
  · simp only [log_leaving, hf] at h
    simp at h
  · rcases hlv : entry.leavingTime with _ | t
    · exact ⟨entry, rfl, hlv⟩
    · simp only [log_leaving, hf, hlv] at h
      simp at h

/-! ### Claims -/

/-- Claim C1: `log_leaving` succeeds only when a record for the key exists
with no leaving time; it fails with the no-arrival message when no record
exists, fails with the already-logged message when the leaving time is set,
and on any trace from the empty store a success presupposes an earlier
successful `log_arrival` for the same key. -/
theorem log_leaving_requires_open_arrival :
    (∀ (db : DB) (now : Nat) (e : String) (d : Nat) (ph : List Nat),
        findRecord db e d = none →
        log_leaving db now e d ph =
          (.ret false "Arrival not logged for today.", db)) ∧
    (∀ (db : DB) (now : Nat) (e : String) (d : Nat) (ph : List Nat)
        (r : AttendanceRecord) (t : String),
        findRecord db e d = some r → r.leavingTime = some t →
        log_leaving db now e d ph =
          (.ret false "Leaving time already logged for today.", db)) ∧
    (∀ (db : DB) (now : Nat) (e : String) (d : Nat) (ph : List Nat)
        (msg : String),
        (log_leaving db now e d ph).1 = .ret true msg →
        ∃ r, findRecord db e d = some r ∧ r.leavingTime = none) ∧
    (∀ (ops : List Op) (now : Nat) (e : String) (d : Nat) (ph : List Nat)
        (msg : String),
        (log_leaving (run ops) now e d ph).1 = .ret true msg →
        hasArrivalSuccess [] ops e d = true) := by
  refine ⟨?_, ?_, ?_, ?_⟩
  · intro db now e d ph h
    simp only [log_leaving, h]
  · intro db now e d ph r t hf hlv
    simp only [log_leaving, hf, hlv]
  · intro db now e d ph msg h
    exact log_leaving_success_shape h
  · intro ops now e d ph msg h
    obtain ⟨r, hr, -⟩ := log_leaving_success_shape h
    have hsome : (findRecord (run ops) e d).isSome = true := by rw [hr]; rfl
    rcases found_has_arrival ops [] e d hsome with h1 | h1
    · simp [findRecord] at h1
    · exact h1

/-- Witness for C1 at a concrete input: on the empty store, `log_leaving`
fails with the no-arrival message and returns the store unchanged. -/
theorem log_leaving_requires_open_arrival_check :
    log_leaving [] 0 "e" 0 [] =
      (.ret false "Arrival not logged for today.", ([] : DB)) :=
  log_leaving_requires_open_arrival.1 [] 0 "e" 0 [] rfl

/-- Claim C2: when a record already exists for the key, `log_arrival` fails
with the duplicate message and leaves the whole collection (in particular
the existing record's fields and photos) unchanged; when none exists it
succeeds and appends a record with no leaving time and no hour count. -/
theorem log_arrival_duplicate_rejection :
    (∀ (db : DB) (now : Nat) (e nm : String) (d : Nat) (ph : List Nat)
        (r : AttendanceRecord),
        findRecord db e d = some r →
        log_arrival db now e nm d ph =
          ((false, "Arrival already logged for today."), db)) ∧
    (∀ (db : DB) (now : Nat) (e nm : String) (d : Nat) (ph : List Nat),
        findRecord db e d = none →
        log_arrival db now e nm d ph =
          ((true, "Arrival logged successfully."),
           insert_one db
             { employeeId := e, name := nm, date := d,
               arrivalTime := formatTime now, leavingTime := none,
               hoursPresent := none, arrivalPhoto := save_image ph,
               leavingPhoto := none })) := by
  constructor
  · intro db now e nm d ph r h
    simp only [log_arrival, h]
  · intro db now e nm d ph h
    simp only [log_arrival, h]

/-- Witness for C2 at a concrete input: on the empty store, `log_arrival`
succeeds and creates the record with null leaving time and hour count. -/
theorem log_arrival_duplicate_rejection_check :
    log_arrival [] 540 "e" "N" 0 [] =
      ((true, "Arrival logged successfully."),
       [{ employeeId := "e", name := "N", date := 0,
          arrivalTime := "09:00 AM", leavingTime := none,
          hoursPresent := none, arrivalPhoto := [250, 250],
          leavingPhoto := none }]) := by
  rw [log_arrival_duplicate_rejection.2 [] 540 "e" "N" 0 [] rfl]
  decide

/-- Claim C3: the elapsed-hours computation of `log_leaving` equals the
spec's description (difference of the two instants, 24 hours added to the
leaving instant when it numerically precedes the arrival one, rounded to 2
decimal places), is non-negative for well-formed times-of-day, yields 0 when
arrival equals leaving, and gives 8.5 for 09:00-17:30 and 0.33 for
23:50-00:10. -/
theorem elapsed_hours_wraparound :
    (∀ arr leave : Nat, hoursRounded arr leave = elapsedHoursSpec arr leave) ∧
    (∀ arr leave : Nat, arr < 1440 → 0 ≤ hoursRounded arr leave) ∧
    (∀ a : Nat, hoursRounded a a = 0) ∧
    hoursRounded 540 1050 = 17 / 2 ∧
    hoursRounded 1430 10 = 33 / 100 := by
  refine ⟨hoursRounded_eq_spec,
          fun arr leave h => hoursRounded_nonneg arr leave h, ?_, ?_, ?_⟩
  · intro a
    unfold hoursRounded wrapMinutes
    norm_num
    unfold round2
    norm_num
    rw [show ((1 : ℚ) / 2).floor = ⌊(1 : ℚ) / 2⌋ from rfl]
    norm_num
  · with_unfolding_all decide
  · with_unfolding_all decide

/-- Witness for C3 at a concrete input: the 09:00-17:30 session has a
non-negative hour count. -/
theorem elapsed_hours_wraparound_check : 0 ≤ hoursRounded 540 1050 :=
  elapsed_hours_wraparound.2.1 540 1050 (by norm_num)

/-- Counterexample to C4 as stated: after a 09:00 AM arrival, an
administrative edit to arrival 05:00 PM and leaving 09:00 AM stores
`Hours Present = -8`, a negative value (the edit applies no wrap-around
correction). -/
theorem admin_edit_negative_hours :
    (findRecord (run [.arrival 540 "e1" "A" 0 [],
                      .adminEdit "e1" 0 "05:00 PM" "09:00 AM"]) "e1" 0).map
        AttendanceRecord.hoursPresent = some (some (-8)) ∧
      ¬ (0 : ℚ) ≤ (-8 : ℚ) := by
  constructor
  · with_unfolding_all decide
  · norm_num

/-- Claim C4, amended: on every trace that uses only `log_arrival` and
`log_leaving` (no administrative edit), every set `Hours Present` value is
non-negative; the administrative edit can store a negative value. -/
theorem hours_present_nonneg_without_admin :
    ∀ ops : List Op, (∀ op ∈ ops, op.isAdmin = false) →
      ∀ r ∈ run ops, ∀ q : ℚ, r.hoursPresent = some q → 0 ≤ q :=
  fun ops hops r hr => (run_RecordOK ops hops r hr).2.2

/-- Witness for the amended C4 at a concrete trace: an arrival at 09:00 AM
followed by a leaving at 05:30 PM stores the non-negative count 8.5. -/
theorem hours_present_nonneg_without_admin_check : (0 : ℚ) ≤ 17 / 2 :=
  hours_present_nonneg_without_admin
    [.arrival 540 "e1" "A" 0 [], .leaving 1050 "e1" 0 []]
    (by decide)
    { employeeId := "e1", name := "A", date := 0,
      arrivalTime := "09:00 AM", leavingTime := some "05:30 PM",
      hoursPresent := some (17 / 2), arrivalPhoto := [250, 250],
      leavingPhoto := some [250, 250] }
    (by with_unfolding_all decide)
    (17 / 2) rfl

/-- Counterexample to C5 as stated: after a 09:00 AM arrival, an
administrative edit with an unparseable arrival text and leaving text
09:00 AM stores a non-null `Leaving Time` together with a null
`Hours Present`, so the two fields are no longer set together. -/
theorem admin_edit_unpaired_leaving :
    (findRecord (run [.arrival 540 "e1" "A" 0 [],
                      .adminEdit "e1" 0 "garbage" "09:00 AM"]) "e1" 0).map
      (fun r => r.leavingTime.isSome == r.hoursPresent.isSome) =
    some false := by
  with_unfolding_all decide

/-- Claim C5, amended: on every trace that uses only `log_arrival` and
`log_leaving` (no administrative edit), a record's `Leaving Time` is
non-null exactly when its `Hours Present` is; the administrative edit can
break the equivalence. -/
theorem leaving_iff_hours_without_admin :
    ∀ ops : List Op, (∀ op ∈ ops, op.isAdmin = false) →
      ∀ r ∈ run ops, r.leavingTime.isSome = r.hoursPresent.isSome :=
  fun ops hops r hr => (run_RecordOK ops hops r hr).2.1

/-- Witness for the amended C5 at a concrete trace: after an arrival and a
leaving, both fields are set. -/
theorem leaving_iff_hours_without_admin_check :
    (some "05:30 PM" : Option String).isSome =
      (some (17 / 2 : ℚ) : Option ℚ).isSome :=
  leaving_iff_hours_without_admin
    [.arrival 540 "e1" "A" 0 [], .leaving 1050 "e1" 0 []]
    (by decide)
    { employeeId := "e1", name := "A", date := 0,
      arrivalTime := "09:00 AM", leavingTime := some "05:30 PM",
      hoursPresent := some (17 / 2), arrivalPhoto := [250, 250],
      leavingPhoto := some [250, 250] }
    (by with_unfolding_all decide)

/-- Claim C6: the geofence admission function returns true exactly when the
distance handed to it (computed by the external geodesic library from the
point and `ALLOWED_LOCATION`) is at most `MAX_DISTANCE_KM`; it is a pure
total function, and with the 1.0 km radius a point at distance 1.01 km is
rejected. -/
theorem geofence_threshold :
    (∀ (dist : ℚ × ℚ → ℚ × ℚ → ℚ) (lat lon : ℚ),
        is_within_allowed_location dist lat lon = true ↔
          dist (lat, lon) ALLOWED_LOCATION ≤ MAX_DISTANCE_KM) ∧
    (∀ (dist : ℚ × ℚ → ℚ × ℚ → ℚ) (lat lon : ℚ),
        dist (lat, lon) ALLOWED_LOCATION = 101 / 100 →
          is_within_allowed_location dist lat lon = false) := by
  constructor
  · intro dist lat lon
    simp [is_within_allowed_location]
  · intro dist lat lon h
    simp only [is_within_allowed_location, h, MAX_DISTANCE_KM]
    norm_num

/-- Witness for C6 at a concrete input: a distance of 1.01 km is rejected
under the 1.0 km radius. -/
theorem geofence_threshold_check :
    is_within_allowed_location (fun _ _ => 101 / 100) 0 0 = false :=
  geofence_threshold.2 (fun _ _ => 101 / 100) 0 0 rfl

/-- Counterexample to C7 as stated: the `attendance` collection has no
unique index, so `insert_one` of a record whose (employee, date) key already
exists appends a second record instead of failing; no `ConflictError`
exists in the code. -/
theorem insert_allows_duplicate_key :
    countKey
      (insert_one
        [{ employeeId := "e1", name := "A", date := 0,
           arrivalTime := "09:00 AM", leavingTime := none,
           hoursPresent := none, arrivalPhoto := [250, 250],
           leavingPhoto := none }]
        { employeeId := "e1", name := "B", date := 0,
          arrivalTime := "10:00 AM", leavingTime := none,
          hoursPresent := none, arrivalPhoto := [250, 250],
          leavingPhoto := none })
      "e1" 0 = 2 := by decide

/-- Claim C7, amended: at most one record exists per (employee, date) key
after any sequence of the program's operations run one at a time, because
`log_arrival` checks for an existing record before inserting; the repository
itself enforces nothing and would accept a duplicate key. -/
theorem at_most_one_record_per_key :
    ∀ (ops : List Op) (e : String) (d : Nat), countKey (run ops) e d ≤ 1 :=
  fun ops e d => foldl_countKey ops [] (fun e2 d2 => by simp [countKey]) e d

/-- Counterexample to C8 as stated: the bytes stored for a 1 × 1 image are
not the bytes handed in; `save_image` decodes, resizes and re-encodes. -/
theorem save_image_transforms_bytes : save_image [1, 1, 7] ≠ [1, 1, 7] := by
  decide

/-- Claim C8, amended: the core does not store the photo payload verbatim:
`save_image` decodes it, resizes it to 250 × 250 and re-encodes it, so every
stored payload decodes to a 250 × 250 image whatever was handed in. -/
theorem save_image_forces_dimensions :
    ∀ bytes : List Nat, (decodeImage (save_image bytes)).width = 250 ∧
      (decodeImage (save_image bytes)).height = 250 :=
  fun _ => ⟨rfl, rfl⟩

/-- Claim C9: reading the location-restriction setting returns the stored
boolean and leaves the store unchanged when set; when unset it persists
`true` and returns `true`; and a read after `set_location_restriction v`
returns `v`. -/
theorem location_policy_get_set :
    (∀ v : Bool, get_location_restriction (some v) = (v, some v)) ∧
    get_location_restriction none = (true, some true) ∧
    (∀ (s : Option Bool) (v : Bool),
        get_location_restriction (set_location_restriction s v) =
          (v, some v)) :=
  ⟨fun _ => rfl, rfl, fun _ _ => rfl⟩

/-- Claim C10: whenever `log_leaving` returns a failure (no record for the
key, or leaving time already set), the collection is returned unchanged:
the failed call writes nothing. -/
theorem log_leaving_failure_no_write :
    ∀ (db : DB) (now : Nat) (e : String) (d : Nat) (ph : List Nat)
      (msg : String),
      (log_leaving db now e d ph).1 = .ret false msg →
      (log_leaving db now e d ph).2 = db := by
  intro db now e d ph msg h
  rcases hf : findRecord db e d with _ | entry
  · simp only [log_leaving, hf]
  · rcases hlv : entry.leavingTime with _ | t
    · rcases harr : parseTime entry.arrivalTime with _ | arrMin
      · simp only [log_leaving, hf, hlv, harr]
      · simp only [log_leaving, hf, hlv, harr] at h
        simp at h
    · simp only [log_leaving, hf, hlv]

/-- Witness for C10 at a concrete input: the failed call on the empty store
returns it unchanged. -/
theorem log_leaving_failure_no_write_check :
    (log_leaving [] 0 "e" 0 []).2 = ([] : DB) :=
  log_leaving_failure_no_write [] 0 "e" 0 []
    "Arrival not logged for today." rfl

end Attendance
